import Mathlib

/-!
Verification of the craboken fungible-token contract core
(src/src/contract.rs, src/src/state.rs, src/src/msg.rs).

The contract is a CosmWasm-style token ledger.  We embed it shallowly:

* canonical addresses are byte strings (`List Nat`); the host's
  `api.canonical_address` oracle is an arbitrary total parameter
  `canon : String → Addr` (the spec calls it deterministic and idempotent);
* 128-bit unsigned amounts are `Nat` together with explicit checked
  arithmetic against `2 ^ 128` (mirroring `u128::checked_add/checked_sub`);
* the persisted store is a typed record: the `State` singleton as an
  `Option State`, the `Balances` map and the two-level `Allowances` map as
  association lists keyed by canonical-address bytes.  The codec of the
  source (JSON via `to_vec`/`from_slice`) is deterministic, so equality of
  the typed record coincides with byte-for-byte equality of the store;
* each handler is a function `Store → Except StdError Unit × Store` that
  threads the store through exactly the reads and writes the Rust code
  performs, in source order; an error result still carries the partially
  mutated store, exactly as the Rust code leaves partial writes in the
  mutable host storage.  The host's all-or-nothing semantics is a separate
  wrapper `hostHandle`.
-/

namespace Craboken

/-- Canonical address: the opaque byte string produced by the host's
canonicalization oracle (`CanonicalAddr`). -/
abbrev Addr := List Nat

/-- The part of `Env` the contract reads: `env.message.sender`. -/
structure Env where
  sender : String
  deriving DecidableEq

/-- `State` from src/src/state.rs lines 15-19: the singleton with the
minter's human address and the total supply. -/
structure State where
  minter : String
  total_supply : Nat
  deriving DecidableEq

/-- `Allowance` from src/src/state.rs lines 130-134. -/
structure Allowance where
  is_allowed : Bool
  amount : Nat
  deriving DecidableEq

/-- The persisted store, as the three typed views of src/src/state.rs:
the `State` singleton (absent before init), the `Balances` map and the
`Allowances` two-level map (keyed by owner and spender canonical bytes). -/
structure Store where
  stateOpt : Option State
  balances : List (Addr × Nat)
  allowances : List ((Addr × Addr) × Allowance)
  deriving DecidableEq

/-- The error kinds the contract produces (`StdError::unauthorized`,
`StdError::generic_err`, and the not-found error a `Singleton::load` of a
missing key raises). -/
inductive StdError where
  | unauthorized
  | genericErr (msg : String)
  | notFound
  deriving DecidableEq

/-- `InitMsg` from src/src/msg.rs lines 5-9. -/
structure InitMsg where
  minter : String
  total_supply : Nat
  deriving DecidableEq

/-- `HandleMsg` from src/src/msg.rs lines 11-39. -/
inductive HandleMsg where
  | Transfer (to_ : String) (amount : Nat)
  | Burn (amount : Nat)
  | SetAllowance (spender : String) (amount : Nat) (is_allowed : Bool)
  | TransferFrom (from_ : String) (to_ : String) (amount : Nat)
  | BurnFrom (from_ : String) (amount : Nat)
  | Mint (recipient : String) (amount : Nat)
  deriving DecidableEq

/-- `QueryMsg` from src/src/msg.rs lines 41-45. -/
inductive QueryMsg where
  | GetBalance (user : String)
  deriving DecidableEq

/-- `u128::checked_add`: `none` exactly when the sum exceeds `2 ^ 128 - 1`. -/
def checked_add (a b : Nat) : Option Nat :=
  if a + b < 2 ^ 128 then some (a + b) else none

/-- `u128::checked_sub`: `none` exactly when the subtrahend exceeds the
minuend. -/
def checked_sub (a b : Nat) : Option Nat :=
  if b ≤ a then some (a - b) else none

/-- Raw lookup in the balances view: the `storage.get` of
`ReadOnlyBalancesImpl::get` (src/src/state.rs lines 69-80) before the
`unwrap_or(0)`. -/
def lookupBal : List (Addr × Nat) → Addr → Option Nat
  | [], _ => none
  | (k, v) :: rest, a => if k = a then some v else lookupBal rest a

/-- `Balances::get` (src/src/state.rs lines 69-80): a missing key reads
as 0 (`unwrap_or(0)`). -/
def getBal (l : List (Addr × Nat)) (a : Addr) : Nat :=
  (lookupBal l a).getD 0

/-- `Balances::set` (src/src/state.rs lines 41-45): overwrite the entry
at the key, or create it. -/
def setBal : List (Addr × Nat) → Addr → Nat → List (Addr × Nat)
  | [], a, v => [(a, v)]
  | (k, w) :: rest, a, v =>
    if k = a then (a, v) :: rest else (k, w) :: setBal rest a v

/-- `Allowances::get` (src/src/state.rs lines 97-99, 120-128): a missing
entry is `none`. -/
def getAllow : List ((Addr × Addr) × Allowance) → Addr → Addr → Option Allowance
  | [], _, _ => none
  | (k, v) :: rest, o, sp => if k = (o, sp) then some v else getAllow rest o sp

/-- `Allowances::set` (src/src/state.rs lines 92-95). -/
def setAllow :
    List ((Addr × Addr) × Allowance) → Addr → Addr → Allowance →
    List ((Addr × Addr) × Allowance)
  | [], o, sp, al => [((o, sp), al)]
  | (k, v) :: rest, o, sp, al =>
    if k = (o, sp) then ((o, sp), al) :: rest else (k, v) :: setAllow rest o sp al

/-- Sum of all stored balance entries (the right-hand side of spec
invariant I1). -/
def sumBalances (l : List (Addr × Nat)) : Nat :=
  (l.map Prod.snd).sum

/-- `try_transfer_inner` (src/src/contract.rs lines 158-180): read the
sender balance, checked-subtract, read the recipient balance (before any
write), checked-add, then write sender followed by recipient. -/
def try_transfer_inner (from_ to_ : Addr) (amount : Nat) (s : Store) :
    Except StdError Unit × Store :=
  let sender_balance := getBal s.balances from_
  match checked_sub sender_balance amount with
  | none => (.error (.genericErr "Too many tokens to transfer"), s)
  | some sender_new_balance =>
    let to_balance := getBal s.balances to_
    match checked_add to_balance amount with
    | none => (.error (.genericErr "Too many tokens to receive"), s)
    | some recipient_new_balance =>
      let s1 : Store := { s with balances := setBal s.balances from_ sender_new_balance }
      let s2 : Store := { s1 with balances := setBal s1.balances to_ recipient_new_balance }
      (.ok (), s2)

/-- `try_burn_inner` (src/src/contract.rs lines 182-210): checked-subtract
from the holder's balance, write it, then `State::write(..).update` which
loads the singleton (not-found if absent), checked-subtracts from
`total_supply` and saves. -/
def try_burn_inner (from_ : Addr) (amount : Nat) (s : Store) :
    Except StdError Unit × Store :=
  let sender_balance := getBal s.balances from_
  match checked_sub sender_balance amount with
  | none => (.error (.genericErr "Too many tokens to burn"), s)
  | some sender_new_balance =>
    let s1 : Store := { s with balances := setBal s.balances from_ sender_new_balance }
    match s1.stateOpt with
    | none => (.error .notFound, s1)
    | some st =>
      match checked_sub st.total_supply amount with
      | none =>
        (.error (.genericErr "More tokens are tried to burn than available in total supply"), s1)
      | some ts => (.ok (), { s1 with stateOpt := some { st with total_supply := ts } })

/-- `process_allowance` (src/src/contract.rs lines 212-236): look up the
allowance, reject a missing or revoked one as unauthorized, checked-subtract
the requested amount, and persist the updated allowance (the `is_allowed`
flag is kept). -/
def process_allowance (owner_addr allowed_addr : Addr) (amount : Nat) (s : Store) :
    Except StdError Unit × Store :=
  match getAllow s.allowances owner_addr allowed_addr with
  | none => (.error .unauthorized, s)
  | some allowance =>
    if allowance.is_allowed then
      match checked_sub allowance.amount amount with
      | none => (.error (.genericErr "Amount of tokens is bigger than allowed to transfer"), s)
      | some na =>
        (.ok (),
          { s with allowances :=
              setAllow s.allowances owner_addr allowed_addr { allowance with amount := na } })
    else (.error .unauthorized, s)

/-- `try_transfer` (src/src/contract.rs lines 47-57). -/
def try_transfer (canon : String → Addr) (env : Env) (to_ : String) (amount : Nat)
    (s : Store) : Except StdError Unit × Store :=
  let sender_addr := canon env.sender
  let to_c := canon to_
  try_transfer_inner sender_addr to_c amount s

/-- `try_burn` (src/src/contract.rs lines 59-67). -/
def try_burn (canon : String → Addr) (env : Env) (amount : Nat) (s : Store) :
    Except StdError Unit × Store :=
  let sender_addr := canon env.sender
  try_burn_inner sender_addr amount s

/-- `try_set_allowance` (src/src/contract.rs lines 69-82). -/
def try_set_allowance (canon : String → Addr) (env : Env) (spender : String)
    (amount : Nat) (is_allowed : Bool) (s : Store) : Except StdError Unit × Store :=
  let sender_addr := canon env.sender
  let spender_c := canon spender
  (.ok (),
    { s with allowances :=
        setAllow s.allowances sender_addr spender_c { is_allowed := is_allowed, amount := amount } })

/-- Sequencing of two fallible steps over the mutable store: Rust's `?`
operator — an error short-circuits, carrying the store as the failing step
left it. -/
def step (p : Except StdError Unit × Store)
    (f : Store → Except StdError Unit × Store) : Except StdError Unit × Store :=
  match p with
  | (.error e, s1) => (.error e, s1)
  | (.ok _, s1) => f s1

/-- `try_transfer_from` (src/src/contract.rs lines 84-100): debit the
allowance first (a write), then run the inner transfer. -/
def try_transfer_from (canon : String → Addr) (env : Env) (from_ to_ : String)
    (amount : Nat) (s : Store) : Except StdError Unit × Store :=
  let sender_addr := canon env.sender
  let from_c := canon from_
  let to_c := canon to_
  step (process_allowance from_c sender_addr amount s) (fun s1 =>
    step (try_transfer_inner from_c to_c amount s1) (fun s2 => (.ok (), s2)))

/-- `try_burn_from` (src/src/contract.rs lines 102-116). -/
def try_burn_from (canon : String → Addr) (env : Env) (from_ : String)
    (amount : Nat) (s : Store) : Except StdError Unit × Store :=
  let sender_addr := canon env.sender
  let from_c := canon from_
  step (process_allowance from_c sender_addr amount s) (fun s1 =>
    step (try_burn_inner from_c amount s1) (fun s2 => (.ok (), s2)))

/-- `try_mint` (src/src/contract.rs lines 118-156): canonicalize sender
and recipient, load the state singleton, compare the canonical minter with
the sender, checked-add to the recipient balance, write it, then update
`total_supply` with a second singleton load and a checked add. -/
def try_mint (canon : String → Addr) (env : Env) (recipient : String) (amount : Nat)
    (s : Store) : Except StdError Unit × Store :=
  let sender_addr := canon env.sender
  let recipient_c := canon recipient
  match s.stateOpt with
  | none => (.error .notFound, s)
  | some state =>
    let minter := canon state.minter
    if minter ≠ sender_addr then (.error .unauthorized, s)
    else
      let recipient_balance := getBal s.balances recipient_c
      match checked_add recipient_balance amount with
      | none => (.error (.genericErr "Too many tokens to mint for user"), s)
      | some nb =>
        let s1 : Store := { s with balances := setBal s.balances recipient_c nb }
        match s1.stateOpt with
        | none => (.error .notFound, s1)
        | some st =>
          match checked_add st.total_supply amount with
          | none =>
            (.error (.genericErr "More token are tried to create than available in total supply"), s1)
          | some ts => (.ok (), { s1 with stateOpt := some { st with total_supply := ts } })

/-- `handle` (src/src/contract.rs lines 26-45): dispatch on the message
variant.  The result store is the raw mutable storage as the Rust handler
leaves it, including partial writes on an error path. -/
def handle (canon : String → Addr) (env : Env) (msg : HandleMsg) (s : Store) :
    Except StdError Unit × Store :=
  match msg with
  | .Transfer to_ amount => try_transfer canon env to_ amount s
  | .Burn amount => try_burn canon env amount s
  | .SetAllowance spender amount is_allowed =>
    try_set_allowance canon env spender amount is_allowed s
  | .TransferFrom from_ to_ amount => try_transfer_from canon env from_ to_ amount s
  | .BurnFrom from_ amount => try_burn_from canon env from_ amount s
  | .Mint recipient amount => try_mint canon env recipient amount s

/-- Modelled from the spec: the host's transactional discipline (spec
sections 4.7 and 5) — the host sandbox, which is not part of src/, discards
every state mutation of a handle call that returns an error, so the
persisted state after an erroring call is the state before it. -/
def hostHandle (canon : String → Addr) (env : Env) (msg : HandleMsg) (s : Store) :
    Except StdError Unit × Store :=
  match handle canon env msg s with
  | (.error e, _) => (.error e, s)
  | (.ok u, s1) => (.ok u, s1)

/-- `init` (src/src/contract.rs lines 9-24): build the `State` record from
the message and save the singleton; no balance or allowance is touched and
nothing is read first. -/
def init (_env : Env) (msg : InitMsg) (s : Store) : Except StdError Unit × Store :=
  (.ok (),
    { s with stateOpt := some { minter := msg.minter, total_supply := msg.total_supply } })

/-- `query_balance` (src/src/contract.rs lines 247-258): canonicalize the
user and read the balance through the read-only view; the store is taken
immutably, so the query performs no write by construction. -/
def query_balance (canon : String → Addr) (s : Store) (user : String) :
    Except StdError Nat :=
  let user_c := canon user
  .ok (getBal s.balances user_c)

/-- Run a sequence of handle calls through the host, requiring every one
of them to succeed. -/
def execOps (canon : String → Addr) : List (Env × HandleMsg) → Store → Option Store
  | [], s => some s
  | (env, msg) :: rest, s =>
    match hostHandle canon env msg s with
    | (.ok _, s1) => execOps canon rest s1
    | (.error _, _) => none

/-- Two-byte big-endian encoding of a length, as used by the key
length-prefixing scheme. -/
def lenBE2 (n : Nat) : List Nat :=
  [n / 256 % 256, n % 256]

/-- Modelled from the spec: the length-prefixing of storage namespaces
(spec section 4.1) implemented by cosmwasm-storage, which is not under
src/ — a non-final prefix is emitted as its 2-byte big-endian length
followed by the prefix bytes. -/
def lengthPrefixed (ns : List Nat) : List Nat :=
  lenBE2 ns.length ++ ns

/-- Modelled from the spec: a prefixed-view key (spec section 4.1) — each
prefix length-prefixed in order, then the final user key appended
verbatim. -/
def prefixedKey (prefixes : List (List Nat)) (key : List Nat) : List Nat :=
  (prefixes.map lengthPrefixed).flatten ++ key

/-- Bytes of an ASCII string constant such as the namespace literals of
src/src/state.rs lines 11-13. -/
def strBytes (s : String) : List Nat :=
  s.toList.map Char.toNat

/-- Modelled from the spec: the key of the `State` singleton (spec
sections 4.3 and 6) — the `state` prefix, length-prefixed, followed by the
literal key `state`. -/
def stateKey : List Nat :=
  prefixedKey [strBytes "state"] (strBytes "state")

/-- Key of a balance entry: the `balances` namespace of
src/src/state.rs line 37 with the canonical address as the final key. -/
def balanceKey (addr : Addr) : List Nat :=
  prefixedKey [strBytes "balances"] addr

/-- Key of an allowance entry: the multilevel namespace
`[allowances, owner]` of src/src/state.rs line 88 with the spender as the
final key. -/
def allowanceKey (owner spender : Addr) : List Nat :=
  prefixedKey [strBytes "allowances", owner] spender

/-! ### Helper lemmas about the store operations -/

theorem checked_sub_eq_some (a b c : Nat) :
    checked_sub a b = some c ↔ b ≤ a ∧ c = a - b := by
  simp [checked_sub]
  intro h
  constructor <;> intro h2 <;> exact h2.symm

theorem checked_sub_zero (a : Nat) : checked_sub a 0 = some a := by
  simp [checked_sub]

theorem checked_add_zero (a : Nat) (h : a < 2 ^ 128) : checked_add a 0 = some a := by
  unfold checked_add
  rw [Nat.add_zero, if_pos h]

theorem lookupBal_setBal_self (l : List (Addr × Nat)) (a : Addr) (v : Nat) :
    lookupBal (setBal l a v) a = some v := by
  induction l with
  | nil => simp [setBal, lookupBal]
  | cons hd tl ih =>
    obtain ⟨k, w⟩ := hd
    by_cases hk : k = a
    · simp [setBal, hk, lookupBal]
    · simp [setBal, hk, lookupBal, ih]

theorem lookupBal_setBal_of_ne (l : List (Addr × Nat)) (a b : Addr) (v : Nat)
    (h : b ≠ a) : lookupBal (setBal l a v) b = lookupBal l b := by
  have hab : ¬ a = b := fun hh => h hh.symm
  induction l with
  | nil => simp [setBal, lookupBal, hab]
  | cons hd tl ih =>
    obtain ⟨k, w⟩ := hd
    by_cases hk : k = a
    · subst hk
      simp [setBal, lookupBal, hab]
    · simp [setBal, hk, lookupBal, ih]

theorem getBal_setBal_self (l : List (Addr × Nat)) (a : Addr) (v : Nat) :
    getBal (setBal l a v) a = v := by
  simp [getBal, lookupBal_setBal_self]

theorem getBal_setBal_of_ne (l : List (Addr × Nat)) (a b : Addr) (v : Nat)
    (h : b ≠ a) : getBal (setBal l a v) b = getBal l b := by
  simp [getBal, lookupBal_setBal_of_ne l a b v h]

theorem getAllow_setAllow_self (l : List ((Addr × Addr) × Allowance))
    (o sp : Addr) (al : Allowance) : getAllow (setAllow l o sp al) o sp = some al := by
  induction l with
  | nil => simp [setAllow, getAllow]
  | cons hd tl ih =>
    obtain ⟨k, w⟩ := hd
    by_cases hk : k = (o, sp)
    · simp [setAllow, hk, getAllow]
    · simp [setAllow, hk, getAllow, ih]

theorem try_transfer_inner_allowances (f t : Addr) (a : Nat) (s : Store) :
    ((try_transfer_inner f t a s).2).allowances = s.allowances := by
  simp only [try_transfer_inner]
  split
  · rfl
  · split
    · rfl
    · rfl

theorem try_transfer_inner_stateOpt (f t : Addr) (a : Nat) (s : Store) :
    ((try_transfer_inner f t a s).2).stateOpt = s.stateOpt := by
  simp only [try_transfer_inner]
  split
  · rfl
  · split
    · rfl
    · rfl

theorem hostHandle_of_handle_error (canon : String → Addr) (env : Env)
    (msg : HandleMsg) (s s1 : Store) (e : StdError)
    (h : handle canon env msg s = (.error e, s1)) :
    hostHandle canon env msg s = (.error e, s) := by
  unfold hostHandle
  rw [h]

theorem hostHandle_of_handle_ok (canon : String → Addr) (env : Env)
    (msg : HandleMsg) (s s1 : Store) (u : Unit)
    (h : handle canon env msg s = (.ok u, s1)) :
    hostHandle canon env msg s = (.ok u, s1) := by
  unfold hostHandle
  rw [h]

theorem handle_of_hostHandle_ok (canon : String → Addr) (env : Env)
    (msg : HandleMsg) (s s1 : Store) (u : Unit)
    (h : hostHandle canon env msg s = (.ok u, s1)) :
    handle canon env msg s = (.ok u, s1) := by
  unfold hostHandle at h
  rcases hh : handle canon env msg s with ⟨r, s2⟩
  rw [hh] at h
  cases r with
  | error e => simp at h
  | ok u2 =>
    simp only [Prod.mk.injEq] at h
    rw [h.2]

theorem step_ok (p : Except StdError Unit × Store)
    (f : Store → Except StdError Unit × Store) (sOut : Store)
    (h : step p f = (.ok (), sOut)) :
    ∃ sMid, p = (.ok (), sMid) ∧ f sMid = (.ok (), sOut) := by
  rcases p with ⟨r, sMid⟩
  cases r with
  | error e => simp [step] at h
  | ok u => exact ⟨sMid, rfl, h⟩

theorem step_of_ok (p : Except StdError Unit × Store)
    (f : Store → Except StdError Unit × Store) (sMid : Store)
    (h : p = (.ok (), sMid)) : step p f = f sMid := by
  rw [h]
  rfl

theorem step_of_error (p : Except StdError Unit × Store)
    (f : Store → Except StdError Unit × Store) (e : StdError) (s1 : Store)
    (h : p = (.error e, s1)) : step p f = (.error e, s1) := by
  rw [h]
  rfl

theorem hostHandle_fst (canon : String → Addr) (env : Env) (msg : HandleMsg)
    (s : Store) : (hostHandle canon env msg s).1 = (handle canon env msg s).1 := by
  unfold hostHandle
  rcases handle canon env msg s with ⟨r, s2⟩
  cases r <;> rfl

theorem process_allowance_spec (o sp : Addr) (x A : Nat) (s : Store)
    (hal : getAllow s.allowances o sp = some { is_allowed := true, amount := A }) :
    process_allowance o sp x s =
      if x ≤ A then
        (.ok (),
          { s with allowances := setAllow s.allowances o sp ⟨true, A - x⟩ })
      else (.error (.genericErr "Amount of tokens is bigger than allowed to transfer"), s) := by
  simp only [process_allowance, hal]
  by_cases hx : x ≤ A
  · simp [checked_sub, hx]
  · simp [checked_sub, hx]

/-! ### Shared concrete inputs for witnesses and counter-evaluations -/

/-- A store without any entry, as the host provides it before init. -/
def blankStore : Store := { stateOpt := none, balances := [], allowances := [] }

/-- The empty ledger of claim C2: a state singleton with zero total supply
and no balance or allowance entries. -/
def emptyLedger : Store :=
  { stateOpt := some { minter := "m", total_supply := 0 }, balances := [], allowances := [] }

/-- A ledger in which alice holds 10 tokens and the total supply is 10. -/
def aliceLedger : Store :=
  { stateOpt := some { minter := "m", total_supply := 10 },
    balances := [(strBytes "alice", 10)], allowances := [] }

/-- `aliceLedger` extended with an allowance of 5 from alice to carl. -/
def aliceCarlLedger : Store :=
  { stateOpt := some { minter := "m", total_supply := 10 },
    balances := [(strBytes "alice", 10)],
    allowances := [((strBytes "alice", strBytes "carl"), { is_allowed := true, amount := 5 })] }

/-! ### The claims -/

/-- C1: the claim states that a self-transfer of `a ≤ b` preserves the stored
balance `b`.  The code falsifies it: with alice's stored balance 10 and amount
5 ≤ 10, the self-transfer succeeds but stores 15, because
`try_transfer_inner` computes the recipient's new balance from the balance
read before the sender debit and its write lands last.  A `TransferFrom` with
`from == to` inflates the balance the same way. -/
theorem self_transfer_inflates_balance :
    getBal aliceLedger.balances (strBytes "alice") = 10 ∧
    (hostHandle strBytes { sender := "alice" } (.Transfer "alice" 5) aliceLedger).1 = .ok () ∧
    getBal ((hostHandle strBytes { sender := "alice" } (.Transfer "alice" 5) aliceLedger).2).balances
      (strBytes "alice") = 15 ∧
    (hostHandle strBytes { sender := "carl" } (.TransferFrom "alice" "alice" 5) aliceCarlLedger).1 = .ok () ∧
    getBal ((hostHandle strBytes { sender := "carl" } (.TransferFrom "alice" "alice" 5) aliceCarlLedger).2).balances
      (strBytes "alice") = 15 :=
  ⟨rfl, rfl, rfl, rfl, rfl⟩

/-- C2: the claim states that after every successful Mint/Burn/Transfer
sequence from the empty ledger, `total_supply` equals the sum of the stored
balances.  The code falsifies it: Mint(alice, 10) by the minter followed by
the successful self-transfer Transfer(to = alice, 5) by alice leaves
`total_supply = 10` but `Σ balances = 15`. -/
theorem supply_invariant_broken_by_self_transfer :
    (execOps strBytes [({ sender := "m" }, .Mint "alice" 10),
        ({ sender := "alice" }, .Transfer "alice" 5)] emptyLedger).map
      (fun s => ((s.stateOpt.map State.total_supply).getD 0, sumBalances s.balances)) =
      some (10, 15) :=
  rfl

/-- C3: a handle call that returns an error leaves the persisted store
unchanged: the host discards every mutation of an erroring call, so the
store paired with an error result of `hostHandle` is the caller's store. -/
theorem error_call_leaves_store_unchanged (canon : String → Addr) (env : Env)
    (msg : HandleMsg) (s s1 : Store) (e : StdError)
    (h : hostHandle canon env msg s = (.error e, s1)) : s1 = s := by
  unfold hostHandle at h
  rcases hh : handle canon env msg s with ⟨r, s2⟩
  rw [hh] at h
  cases r with
  | error e2 =>
    simp only [Prod.mk.injEq] at h
    exact h.2.symm
  | ok u => simp at h

/-- Witness for C3: burning 1 token from an account with no balance fails
and leaves the blank store intact. -/
theorem error_call_leaves_store_unchanged_witness :
    (hostHandle strBytes { sender := "x" } (.Burn 1) blankStore).2 = blankStore :=
  error_call_leaves_store_unchanged strBytes { sender := "x" } (.Burn 1) blankStore
    (hostHandle strBytes { sender := "x" } (.Burn 1) blankStore).2
    (.genericErr "Too many tokens to burn") rfl

/-- C9: `init` succeeds on every prior store, including an already
initialized one, unconditionally overwrites the `State` singleton with the
minter and total supply of the message, and leaves every balance and every
allowance entry unchanged; the core has no guard against repeated
initialization. -/
theorem init_overwrites_state_only (env : Env) (msg : InitMsg) (s : Store) :
    init env msg s =
      (.ok (), { s with stateOpt := some { minter := msg.minter, total_supply := msg.total_supply } }) ∧
    ((init env msg s).2).balances = s.balances ∧
    ((init env msg s).2).allowances = s.allowances :=
  ⟨rfl, rfl, rfl⟩

/-- C7: `init` writes only the `State` singleton and credits nobody: its
balances and allowances are those of the prior store, a query on the store
initialized from the blank host store returns 0 for every address, and a
balance query for any address without an entry returns 0 (the query reads
the store immutably and performs no write). -/
theorem init_credits_no_account (canon : String → Addr) (env : Env) (msg : InitMsg)
    (s : Store) (user : String) :
    ((init env msg s).2).balances = s.balances ∧
    ((init env msg s).2).allowances = s.allowances ∧
    (∀ u : String, query_balance canon ((init env msg blankStore).2) u = .ok 0) ∧
    (lookupBal s.balances (canon user) = none → query_balance canon s user = .ok 0) := by
  refine ⟨rfl, rfl, fun u => rfl, fun h => ?_⟩
  simp [query_balance, getBal, h]

/-- Witness for C7: a balance query for an address with no entry returns 0. -/
theorem init_credits_no_account_witness :
    query_balance strBytes emptyLedger "ghost" = .ok 0 :=
  (init_credits_no_account strBytes { sender := "x" }
    { minter := "m", total_supply := 0 } emptyLedger "ghost").2.2.2 rfl

/-- C8: every persisted entry lives under the documented key bytes: the
`State` singleton under the 2-byte big-endian length of `state` followed by
`state` twice, a balance under the length-prefixed `balances` namespace
followed by the canonical address, and an allowance under the
length-prefixed `allowances` namespace, the length-prefixed owner bytes and
the spender bytes. -/
theorem storage_keys_as_documented :
    stateKey = lenBE2 5 ++ strBytes "state" ++ strBytes "state" ∧
    (∀ addr : Addr, balanceKey addr = lenBE2 8 ++ strBytes "balances" ++ addr) ∧
    (∀ owner spender : Addr,
      allowanceKey owner spender =
        lenBE2 10 ++ strBytes "allowances" ++ lenBE2 owner.length ++ owner ++ spender) := by
  refine ⟨rfl, fun addr => rfl, fun owner spender => ?_⟩
  simp [allowanceKey, prefixedKey, lengthPrefixed, strBytes, lenBE2]

theorem try_mint_unauthorized (canon : String → Addr) (env : Env) (recipient : String)
    (amount : Nat) (s : Store) (st : State) (hst : s.stateOpt = some st)
    (hne : canon env.sender ≠ canon st.minter) :
    try_mint canon env recipient amount s = (.error .unauthorized, s) := by
  simp only [try_mint, hst]
  rw [if_pos (fun hh => hne hh.symm)]

theorem try_mint_no_unauthorized (canon : String → Addr) (env : Env) (recipient : String)
    (amount : Nat) (s : Store) (st : State) (hst : s.stateOpt = some st)
    (heq : canon env.sender = canon st.minter) :
    (try_mint canon env recipient amount s).1 ≠ .error .unauthorized := by
  simp only [try_mint, hst]
  rw [if_neg (fun hh => hh heq.symm)]
  split
  · simp
  · split
    · simp
    · simp

/-- C6: `Mint` succeeds only when the caller's canonical address equals the
canonical form of `State.minter` — so textually different but canonically
equal sender forms pass the check and never see `Unauthorized` — and a
canonical mismatch returns `Unauthorized` with the store unchanged. -/
theorem mint_requires_canonical_minter (canon : String → Addr) (env : Env)
    (recipient : String) (amount : Nat) (s : Store) (st : State)
    (hst : s.stateOpt = some st) :
    ((hostHandle canon env (.Mint recipient amount) s).1 = .ok () →
      canon env.sender = canon st.minter) ∧
    (canon env.sender ≠ canon st.minter →
      hostHandle canon env (.Mint recipient amount) s = (.error .unauthorized, s)) ∧
    (canon env.sender = canon st.minter →
      (hostHandle canon env (.Mint recipient amount) s).1 ≠ .error .unauthorized) := by
  have hU : ∀ _ : canon env.sender ≠ canon st.minter,
      hostHandle canon env (.Mint recipient amount) s = (.error .unauthorized, s) := by
    intro hne
    exact hostHandle_of_handle_error canon env (.Mint recipient amount) s s .unauthorized
      (try_mint_unauthorized canon env recipient amount s st hst hne)
  refine ⟨?_, hU, ?_⟩
  · intro hok
    by_contra hne
    rw [hU hne] at hok
    simp at hok
  · intro heq hcon
    rw [hostHandle_fst] at hcon
    exact try_mint_no_unauthorized canon env recipient amount s st hst heq hcon

/-- Witness for C6: a sender who is not the minter gets `Unauthorized` and
the ledger is untouched. -/
theorem mint_requires_canonical_minter_witness :
    hostHandle strBytes { sender := "bob" } (.Mint "r" 5) emptyLedger =
      (.error .unauthorized, emptyLedger) :=
  (mint_requires_canonical_minter strBytes { sender := "bob" } "r" 5 emptyLedger
    { minter := "m", total_supply := 0 } rfl).2.1 (by decide)

/-- The store after a `SetAllowance` write, as `try_set_allowance` leaves
it. -/
def setAllowStore (s : Store) (o sp : Addr) (al : Allowance) : Store :=
  { s with allowances := setAllow s.allowances o sp al }

/-- C10: a zero-amount Transfer succeeds for every caller and recipient —
given that the recipient's stored balance fits in 128 bits, as every stored
`u128` does — and leaves every account's balance value unchanged: the two
touched keys are rewritten with their old values. -/
theorem zero_transfer_preserves_balances (canon : String → Addr) (env : Env)
    (to_ : String) (s : Store) (hto : getBal s.balances (canon to_) < 2 ^ 128) :
    (hostHandle canon env (.Transfer to_ 0) s).1 = .ok () ∧
    ∀ a : Addr,
      getBal ((hostHandle canon env (.Transfer to_ 0) s).2).balances a = getBal s.balances a := by
  have hh : handle canon env (.Transfer to_ 0) s =
      (.ok (),
        { s with balances :=
            (setBal (setBal s.balances (canon env.sender) (getBal s.balances (canon env.sender)))
              (canon to_) (getBal s.balances (canon to_))) }) := by
    show try_transfer canon env to_ 0 s = _
    simp only [try_transfer, try_transfer_inner, checked_sub_zero, checked_add_zero _ hto]
  rw [hostHandle_of_handle_ok _ _ _ _ _ _ hh]
  refine ⟨rfl, fun a => ?_⟩
  by_cases hat : a = canon to_
  · subst hat
    rw [getBal_setBal_self]
  · rw [getBal_setBal_of_ne _ _ _ _ hat]
    by_cases has : a = canon env.sender
    · subst has
      rw [getBal_setBal_self]
    · rw [getBal_setBal_of_ne _ _ _ _ has]

/-- Witness for C10: a zero transfer from alice to bob on the alice ledger
succeeds. -/
theorem zero_transfer_preserves_balances_witness :
    (hostHandle strBytes { sender := "alice" } (.Transfer "bob" 0) aliceLedger).1 = .ok () :=
  (zero_transfer_preserves_balances strBytes { sender := "alice" } "bob" aliceLedger
    (by decide)).1

theorem process_allowance_revoked (o sp : Addr) (x : Nat) (s : Store)
    (h : getAllow s.allowances o sp = none ∨
      ∃ a, getAllow s.allowances o sp = some ⟨false, a⟩) :
    process_allowance o sp x s = (.error .unauthorized, s) := by
  rcases h with h | ⟨a, h⟩
  · simp [process_allowance, h]
  · simp [process_allowance, h]

theorem transfer_from_of_revoked (canon : String → Addr) (env : Env)
    (from_ to_ : String) (x : Nat) (s : Store)
    (h : process_allowance (canon from_) (canon env.sender) x s = (.error .unauthorized, s)) :
    hostHandle canon env (.TransferFrom from_ to_ x) s = (.error .unauthorized, s) := by
  refine hostHandle_of_handle_error _ _ _ _ s .unauthorized ?_
  show try_transfer_from canon env from_ to_ x s = _
  simp only [try_transfer_from]
  rw [step_of_error _ _ _ _ h]

theorem burn_from_of_revoked (canon : String → Addr) (env : Env)
    (from_ : String) (x : Nat) (s : Store)
    (h : process_allowance (canon from_) (canon env.sender) x s = (.error .unauthorized, s)) :
    hostHandle canon env (.BurnFrom from_ x) s = (.error .unauthorized, s) := by
  refine hostHandle_of_handle_error _ _ _ _ s .unauthorized ?_
  show try_burn_from canon env from_ x s = _
  simp only [try_burn_from]
  rw [step_of_error _ _ _ _ h]

/-- C5: after the owner stores an allowance with `is_allowed = false`, every
`TransferFrom` and every `BurnFrom` by that spender on that owner fails with
`Unauthorized`, for every requested amount and whatever the stored amount;
the same holds against a store with no allowance entry for the pair. -/
theorem revoked_allowance_unauthorized (canon : String → Addr)
    (owner spender other : String) (a x : Nat) (s s1 : Store)
    (h1 : hostHandle canon { sender := owner } (.SetAllowance spender a false) s = (.ok (), s1)) :
    hostHandle canon { sender := spender } (.TransferFrom owner other x) s1 =
      (.error .unauthorized, s1) ∧
    hostHandle canon { sender := spender } (.BurnFrom owner x) s1 =
      (.error .unauthorized, s1) ∧
    (getAllow s.allowances (canon owner) (canon spender) = none →
      hostHandle canon { sender := spender } (.TransferFrom owner other x) s =
        (.error .unauthorized, s) ∧
      hostHandle canon { sender := spender } (.BurnFrom owner x) s =
        (.error .unauthorized, s)) := by
  have hh1 : ((Except.ok (), setAllowStore s (canon owner) (canon spender) ⟨false, a⟩) :
      Except StdError Unit × Store) = (.ok (), s1) :=
    handle_of_hostHandle_ok _ _ _ _ _ _ h1
  have hs1 : s1 = setAllowStore s (canon owner) (canon spender) ⟨false, a⟩ :=
    ((Prod.mk.injEq _ _ _ _).mp hh1).2.symm
  subst hs1
  have hrev : process_allowance (canon owner) (canon spender) x
      (setAllowStore s (canon owner) (canon spender) ⟨false, a⟩) =
      (.error .unauthorized, setAllowStore s (canon owner) (canon spender) ⟨false, a⟩) :=
    process_allowance_revoked _ _ _ _ (Or.inr ⟨a, getAllow_setAllow_self _ _ _ _⟩)
  exact ⟨transfer_from_of_revoked _ _ _ _ _ _ hrev,
    burn_from_of_revoked _ _ _ _ _ hrev,
    fun hnone =>
      ⟨transfer_from_of_revoked _ _ _ _ _ _
          (process_allowance_revoked _ _ _ _ (Or.inl hnone)),
        burn_from_of_revoked _ _ _ _ _
          (process_allowance_revoked _ _ _ _ (Or.inl hnone))⟩⟩

/-- Witness for C5: after alice revokes bob's allowance, bob's TransferFrom
fails with Unauthorized and the store is unchanged. -/
theorem revoked_allowance_unauthorized_witness :
    hostHandle strBytes { sender := "bob" } (.TransferFrom "alice" "carl" 3)
        ((hostHandle strBytes { sender := "alice" } (.SetAllowance "bob" 5 false) emptyLedger).2) =
      (.error .unauthorized,
        (hostHandle strBytes { sender := "alice" } (.SetAllowance "bob" 5 false) emptyLedger).2) :=
  (revoked_allowance_unauthorized strBytes "alice" "bob" "carl" 5 3 emptyLedger _ rfl).1

theorem try_transfer_inner_ok_allowances (f t : Addr) (a : Nat)
    (sIn sOut : Store) (u : Unit)
    (h : try_transfer_inner f t a sIn = (.ok u, sOut)) :
    sOut.allowances = sIn.allowances := by
  have h2 := try_transfer_inner_allowances f t a sIn
  rw [h] at h2
  exact h2

/-- C4: after the owner grants `SetAllowance(spender, A, true)`, a successful
`TransferFrom(from = owner, amount = x)` by the spender leaves the stored
allowance for the pair equal to `{is_allowed := true, amount := A - x}`,
the flag preserved. -/
theorem transfer_from_debits_allowance (canon : String → Addr)
    (owner spender other : String) (A x : Nat) (s s1 s2 : Store)
    (h1 : hostHandle canon { sender := owner } (.SetAllowance spender A true) s = (.ok (), s1))
    (h2 : hostHandle canon { sender := spender } (.TransferFrom owner other x) s1 = (.ok (), s2)) :
    getAllow s2.allowances (canon owner) (canon spender) = some ⟨true, A - x⟩ := by
  have hh1 : ((Except.ok (), setAllowStore s (canon owner) (canon spender) ⟨true, A⟩) :
      Except StdError Unit × Store) = (.ok (), s1) :=
    handle_of_hostHandle_ok _ _ _ _ _ _ h1
  have hs1 : s1 = setAllowStore s (canon owner) (canon spender) ⟨true, A⟩ :=
    ((Prod.mk.injEq _ _ _ _).mp hh1).2.symm
  subst hs1
  have hh2 : try_transfer_from canon { sender := spender } owner other x
      (setAllowStore s (canon owner) (canon spender) ⟨true, A⟩) = (.ok (), s2) :=
    handle_of_hostHandle_ok _ _ _ _ _ _ h2
  rw [try_transfer_from] at hh2
  obtain ⟨sMid, hpa, hrest⟩ := step_ok _ _ _ hh2
  obtain ⟨sMid2, hti, hfin⟩ := step_ok _ _ _ hrest
  have hs2 : sMid2 = s2 := ((Prod.mk.injEq _ _ _ _).mp hfin).2
  subst hs2
  have hspec := process_allowance_spec (canon owner) (canon spender) x A
    (setAllowStore s (canon owner) (canon spender) ⟨true, A⟩) (getAllow_setAllow_self _ _ _ _)
  by_cases hx : x ≤ A
  · rw [if_pos hx] at hspec
    rw [hspec] at hpa
    have hMid := ((Prod.mk.injEq _ _ _ _).mp hpa).2
    subst hMid
    rw [try_transfer_inner_ok_allowances _ _ _ _ _ _ hti]
    exact getAllow_setAllow_self _ _ _ _
  · rw [if_neg hx] at hspec
    rw [hspec] at hpa
    simp at hpa

/-- Witness for C4: granting carol an allowance of 10 from alice and
transferring 7 from alice to bob by carol leaves the stored allowance
`{is_allowed := true, amount := 3}`. -/
theorem transfer_from_debits_allowance_witness :
    getAllow ((hostHandle strBytes { sender := "carol" } (.TransferFrom "alice" "bob" 7)
        ((hostHandle strBytes { sender := "alice" }
          (.SetAllowance "carol" 10 true) aliceLedger).2)).2).allowances
      (strBytes "alice") (strBytes "carol") = some ⟨true, 10 - 7⟩ :=
  transfer_from_debits_allowance strBytes "alice" "carol" "bob" 10 7 aliceLedger _ _ rfl rfl

end Craboken
